import Mathlib

/-!
Shallow embedding of the chainpoint-services proof-generation service
(the Proof Assembly and Delivery Engine) and of the age/TTL logic of the
proof-retrieval endpoint, together with theorems settling the frozen
claims about them.

The embedding follows the source:
  * the proof-gen service source (`generateCALProof`, `generateBTCProof`,
    `generateETHProof`, `addChainpointHeader`, `addCalendarBranch`,
    `addBtcBranch`, `processMessage`);
  * `node-api-service/lib/endpoints/proofs.js` (the retrieval layer's
    maximum-age cutoff).
External collaborators (the AMQP broker, Redis, the JSON-schema validator,
the chainpoint-binary codec, the uuid-time library) are modelled as
explicit inputs or, where a claim is decided by them, modelled from the
spec with a doc comment saying so.
-/

namespace Chainpoint

/-- A terminal anchor reference as placed inside an `anchors` element of a
branch's ops list.  The calendar anchor carries `type`, `anchor_id` and
`uris`; the btc anchor carries only `type` and `anchor_id` (no `uris`
field), so `uris` is an `Option`. -/
structure Anchor where
  type : String
  anchor_id : String
  uris : Option (List String)
deriving DecidableEq, Repr

/-- One element of a branch's ops list.  Upstream-computed hash-chain
operations are opaque to this engine (it only concatenates them), so they
are carried as `basic` elements with opaque content; the terminal anchors
element appended by the compositor is `anchorList`. -/
inductive ProofOp where
  | basic (data : String)
  | anchorList (anchors : List Anchor)
deriving DecidableEq, Repr

/-- The anchor reference carried by a state fragment
(`cal_state.anchor`, `btchead_state.anchor`). -/
structure StateAnchor where
  anchor_id : String
  uris : List String
deriving DecidableEq, Repr

/-- A state fragment carrying only an ops list
(`agg_state`, `anchor_agg_state`, `btctx_state`). -/
structure OpsState where
  ops : List ProofOp
deriving DecidableEq, Repr

/-- A state fragment carrying an ops list and an anchor reference
(`cal_state`, `btchead_state`). -/
structure AnchorState where
  ops : List ProofOp
  anchor : StateAnchor
deriving DecidableEq, Repr

/-- A nested sub-branch of the proof document (the btc anchor branch).
The service never nests deeper than one level, so sub-branches carry no
further `branches` field. -/
structure SubBranch where
  label : String
  ops : List ProofOp
deriving DecidableEq, Repr

/-- A root branch of the proof document (the calendar anchor branch).
`branches` is `none` when the branch object has no `branches` field (the
CAL case) and `some` once `addBtcBranch` has assigned one. -/
structure RootBranch where
  label : String
  ops : List ProofOp
  branches : Option (List SubBranch)
deriving DecidableEq, Repr

/-- The composed Chainpoint v3 proof document.  `context` embeds the JS
field named with an at-sign; `branches` is `none` before
`addCalendarBranch` assigns it. -/
structure ProofDoc where
  context : String
  type : String
  hash : String
  hash_id : String
  hash_submitted_at : String
  branches : Option (List RootBranch)
deriving DecidableEq, Repr

/-- The empty object the handlers start from (`let proof = x7b x7d`). -/
def emptyProof : ProofDoc :=
  { context := "", type := "", hash := "", hash_id := ""
    hash_submitted_at := "", branches := none }

/-! ### The uuid-time and date formatting helpers

`uuid-time` and JS `Date.toISOString` are external libraries (not under
the repository's source tree); they are modelled from the spec as pure
functions of their arguments. -/

/-- Hex digit value, `none` for a non-hex character. -/
def hexVal (c : Char) : Option Nat :=
  if '0' ≤ c ∧ c ≤ '9' then some (c.toNat - '0'.toNat)
  else if 'a' ≤ c ∧ c ≤ 'f' then some (c.toNat - 'a'.toNat + 10)
  else if 'A' ≤ c ∧ c ≤ 'F' then some (c.toNat - 'A'.toNat + 10)
  else none

/-- Parse a hex string to a natural number (0 on any non-hex character,
standing in for the NaN path, which is never taken for well-formed v1
UUIDs). -/
def parseHexNat (s : String) : Nat :=
  s.toList.foldl (fun acc c => acc * 16 + (hexVal c).getD 0) 0

/-- Modelled from the spec: the `uuid-time` library's `.v1`, which
recovers the millisecond timestamp embedded in a version-1 UUID — a pure
function of the UUID string: it rearranges the first three dash-separated
groups (dropping the version nibble), reads them as a hex count of 100ns
intervals since the Gregorian epoch, and converts to Unix milliseconds. -/
def uuidTimeV1 (uuid : String) : Int :=
  let parts := uuid.splitOn "-"
  let g0 := (parts.get? 0).getD ""
  let g1 := (parts.get? 1).getD ""
  let g2 := (parts.get? 2).getD ""
  let gregorian100ns : Int := parseHexNat ((g2.drop 1) ++ g1 ++ g0)
  Int.fdiv (gregorian100ns - 122192928000000000) 10000

/-- Pad a natural number with leading zeros to two digits. -/
def pad2 (n : Nat) : String :=
  if n < 10 then "0" ++ toString n else toString n

/-- Pad a natural number with leading zeros to at least four digits. -/
def pad4 (n : Nat) : String :=
  if n < 10 then "000" ++ toString n
  else if n < 100 then "00" ++ toString n
  else if n < 1000 then "0" ++ toString n
  else toString n

/-- Pad a natural number with leading zeros to three digits. -/
def pad3 (n : Nat) : String :=
  if n < 10 then "00" ++ toString n
  else if n < 100 then "0" ++ toString n
  else toString n

/-- Civil date from a day count relative to 1970-01-01
(the standard era-based algorithm); returns (year, month, day). -/
def civilFromDays (z0 : Int) : Int × Nat × Nat :=
  let z := z0 + 719468
  let era := Int.fdiv z 146097
  let doe := (z - era * 146097).toNat
  let yoe := (doe - doe / 1460 + doe / 36524 - doe / 146096) / 365
  let y : Int := (yoe : Int) + era * 400
  let doy := doe - (365 * yoe + yoe / 4 - yoe / 100)
  let mp := (5 * doy + 2) / 153
  let d := doy - (153 * mp + 2) / 5 + 1
  let m := if mp < 10 then mp + 3 else mp - 9
  (if m ≤ 2 then y + 1 else y, m, d)

/-- Modelled from the spec: JS `new Date(ms).toISOString()` — a pure
function of the millisecond timestamp producing
`YYYY-MM-DDTHH:mm:ss.sssZ`. -/
def toISOString (ms : Int) : String :=
  let days := Int.fdiv ms 86400000
  let msod := (ms - days * 86400000).toNat
  let ymd := civilFromDays days
  let hh := msod / 3600000
  let mm := msod % 3600000 / 60000
  let ss := msod % 60000 / 1000
  let mss := msod % 1000
  pad4 ymd.1.toNat ++ "-" ++ pad2 ymd.2.1 ++ "-" ++ pad2 ymd.2.2 ++ "T" ++
    pad2 hh ++ ":" ++ pad2 mm ++ ":" ++ pad2 ss ++ "." ++ pad3 mss ++ "Z"

/-- `formatDateISO8601NoMs` from the source: ISO8601 with the millisecond
part stripped (`date.toISOString().slice(0, 19) + Z`). -/
def formatDateISO8601NoMs (dateMs : Int) : String :=
  (toISOString dateMs).take 19 ++ "Z"

/-! ### Proof composition -/

/-- `addChainpointHeader` from the source: fills the fixed header fields;
`hash_submitted_at` is computed from the timestamp embedded in the hashId
(`formatDateISO8601NoMs(new Date(uuidTime.v1(hashId)))`) — no wall clock
is read. -/
def addChainpointHeader (proof : ProofDoc) (hash hashId : String) : ProofDoc :=
  { proof with
    context := "https://w3id.org/chainpoint/v3"
    type := "Chainpoint"
    hash := hash
    hash_id := hashId
    hash_submitted_at := formatDateISO8601NoMs (uuidTimeV1 hashId) }

/-- `addCalendarBranch` from the source: builds the calendar anchor
branch whose ops are `aggState.ops.concat(calState.ops)` with one
`anchors` element pushed at the end, and assigns it as the single root
branch of the document. -/
def addCalendarBranch (proof : ProofDoc) (aggState : OpsState)
    (calState : AnchorState) : ProofDoc :=
  let calendarAnchor : Anchor :=
    { type := "cal"
      anchor_id := calState.anchor.anchor_id
      uris := some calState.anchor.uris }
  let calendarBranch : RootBranch :=
    { label := "cal_anchor_branch"
      ops := aggState.ops ++ calState.ops ++ [ProofOp.anchorList [calendarAnchor]]
      branches := none }
  { proof with branches := some [calendarBranch] }

/-- `addBtcBranch` from the source: builds the btc anchor branch whose
ops are `anchorAggState.ops.concat(btcTxState.ops, btcHeadState.ops)`
with one `anchors` element pushed at the end, and assigns it as the
single sub-branch of the document's first root branch
(`proof.branches[0].branches = [btcBranch]`).  The source indexes
`proof.branches[0]` unconditionally; a document with no root branch would
throw in JS, modelled here as `none`. -/
def addBtcBranch (proof : ProofDoc) (anchorAggState btcTxState : OpsState)
    (btcHeadState : AnchorState) : Option ProofDoc :=
  let btcAnchor : Anchor :=
    { type := "btc"
      anchor_id := btcHeadState.anchor.anchor_id
      uris := none }
  let btcBranch : SubBranch :=
    { label := "btc_anchor_branch"
      ops := anchorAggState.ops ++ btcTxState.ops ++ btcHeadState.ops ++
        [ProofOp.anchorList [btcAnchor]] }
  match proof.branches with
  | none => none
  | some [] => none
  | some (b0 :: rest) =>
    some { proof with branches := some ({ b0 with branches := some [btcBranch] } :: rest) }

/-! ### The binary proof codec

Modelled from the spec: the `chainpoint-binary` library (external to the
repository source tree) provides `objectToBase64` / `binaryToObject`, a
compact, lossless, reversible binary transform of the Proof Document.
It is modelled as a token-stream serialization of `ProofDoc`: every field
is emitted in a fixed order, lists are length-prefixed, options are
tagged.  `chpDecode` is the exact inverse parser. -/

/-- One token of the serialized form. -/
inductive Tok where
  | str (s : String)
  | num (n : Nat)
  | tag (n : Nat)
deriving DecidableEq, Repr

/-- Serialize a string field. -/
def encString (s : String) : List Tok := [Tok.str s]

/-- Serialize the elements of a list, in order. -/
def encMany (f : α → List Tok) : List α → List Tok
  | [] => []
  | x :: xs => f x ++ encMany f xs

/-- Serialize a list: length prefix, then the elements. -/
def encList (f : α → List Tok) (xs : List α) : List Tok :=
  Tok.num xs.length :: encMany f xs

/-- Serialize an option: a presence tag, then the value when present. -/
def encOption (f : α → List Tok) : Option α → List Tok
  | none => [Tok.tag 0]
  | some a => Tok.tag 1 :: f a

/-- Parse a string field. -/
def decString : List Tok → Option (String × List Tok)
  | Tok.str s :: r => some (s, r)
  | _ => none

/-- Parse exactly `n` elements with `g`. -/
def decMany (g : List Tok → Option (α × List Tok)) :
    Nat → List Tok → Option (List α × List Tok)
  | 0, r => some ([], r)
  | n + 1, r =>
    match g r with
    | none => none
    | some (x, r1) =>
      match decMany g n r1 with
      | none => none
      | some (xs, r2) => some (x :: xs, r2)

/-- Parse a length-prefixed list. -/
def decList (g : List Tok → Option (α × List Tok)) :
    List Tok → Option (List α × List Tok)
  | Tok.num n :: r => decMany g n r
  | _ => none

/-- Parse a tagged option. -/
def decOption (g : List Tok → Option (α × List Tok)) :
    List Tok → Option (Option α × List Tok)
  | Tok.tag 0 :: r => some (none, r)
  | Tok.tag 1 :: r =>
    match g r with
    | none => none
    | some (a, r1) => some (some a, r1)
  | _ => none

/-- Serialize an `Anchor`. -/
def encAnchor (a : Anchor) : List Tok :=
  encString a.type ++ encString a.anchor_id ++ encOption (encList encString) a.uris

/-- Parse an `Anchor`. -/
def decAnchor (ts : List Tok) : Option (Anchor × List Tok) :=
  match decString ts with
  | none => none
  | some (ty, r1) =>
    match decString r1 with
    | none => none
    | some (aid, r2) =>
      match decOption (decList decString) r2 with
      | none => none
      | some (us, r3) => some ({ type := ty, anchor_id := aid, uris := us }, r3)

/-- Serialize a `ProofOp`. -/
def encProofOp : ProofOp → List Tok
  | ProofOp.basic d => Tok.tag 0 :: encString d
  | ProofOp.anchorList as => Tok.tag 1 :: encList encAnchor as

/-- Parse a `ProofOp`. -/
def decProofOp : List Tok → Option (ProofOp × List Tok)
  | Tok.tag 0 :: r =>
    match decString r with
    | none => none
    | some (d, r1) => some (ProofOp.basic d, r1)
  | Tok.tag 1 :: r =>
    match decList decAnchor r with
    | none => none
    | some (as, r1) => some (ProofOp.anchorList as, r1)
  | _ => none

/-- Serialize a `SubBranch`. -/
def encSubBranch (b : SubBranch) : List Tok :=
  encString b.label ++ encList encProofOp b.ops

/-- Parse a `SubBranch`. -/
def decSubBranch (ts : List Tok) : Option (SubBranch × List Tok) :=
  match decString ts with
  | none => none
  | some (lb, r1) =>
    match decList decProofOp r1 with
    | none => none
    | some (os, r2) => some ({ label := lb, ops := os }, r2)

/-- Serialize a `RootBranch`. -/
def encRootBranch (b : RootBranch) : List Tok :=
  encString b.label ++ encList encProofOp b.ops ++
    encOption (encList encSubBranch) b.branches

/-- Parse a `RootBranch`. -/
def decRootBranch (ts : List Tok) : Option (RootBranch × List Tok) :=
  match decString ts with
  | none => none
  | some (lb, r1) =>
    match decList decProofOp r1 with
    | none => none
    | some (os, r2) =>
      match decOption (decList decSubBranch) r2 with
      | none => none
      | some (bs, r3) => some ({ label := lb, ops := os, branches := bs }, r3)

/-- Serialize a `ProofDoc` to the token stream. -/
def encProofDoc (d : ProofDoc) : List Tok :=
  encString d.context ++ encString d.type ++ encString d.hash ++
    encString d.hash_id ++ encString d.hash_submitted_at ++
    encOption (encList encRootBranch) d.branches

/-- Parse a `ProofDoc` from a token stream. -/
def decProofDoc (ts : List Tok) : Option (ProofDoc × List Tok) :=
  match decString ts with
  | none => none
  | some (cx, r1) =>
    match decString r1 with
    | none => none
    | some (ty, r2) =>
      match decString r2 with
      | none => none
      | some (h, r3) =>
        match decString r3 with
        | none => none
        | some (hid, r4) =>
          match decString r4 with
          | none => none
          | some (hsa, r5) =>
            match decOption (decList decRootBranch) r5 with
            | none => none
            | some (bs, r6) =>
              some ({ context := cx, type := ty, hash := h, hash_id := hid
                      hash_submitted_at := hsa, branches := bs }, r6)

/-- The encoder applied before persistence
(`chpBinary.objectToBase64`, modelled from the spec). -/
def chpEncode (d : ProofDoc) : List Tok := encProofDoc d

/-- The decoder applied by the retrieval layer
(`chpBinary.binaryToObject`, modelled from the spec): parses a whole
document and rejects trailing garbage. -/
def chpDecode (ts : List Tok) : Option ProofDoc :=
  match decProofDoc ts with
  | some (d, []) => some d
  | _ => none

/-! ### The delivery pipeline

The handlers' effects on the broker, Redis and the console are made
explicit: the collaborators' responses for the one message being
processed are an input (`World`), and everything the handler does is
collected in a `GenOutcome`. -/

/-- The configuration values the service reads
(from `parse-env.js`, external). -/
structure Env where
  RMQ_WORK_IN_GEN_QUEUE : String
  RMQ_WORK_OUT_API_QUEUE : String
  RMQ_OUTGOING_EXCHANGE : String
  PROOF_EXPIRE_MINUTES : Nat
deriving DecidableEq, Repr

/-- The subscription hash read back by `redis.hgetall`: either field may
be absent. -/
structure Subscription where
  api_id : Option String
  cx_id : Option String
deriving DecidableEq, Repr

/-- JS truthiness of a possibly-absent string field: absent (undefined)
and the empty string are falsy. -/
def truthy : Option String → Bool
  | none => false
  | some s => !(s == "")

/-- A node-style callback result: an error, or a value. -/
inductive CbResult (α : Type) where
  | err
  | ok (a : α)
deriving DecidableEq, Repr

/-- The responses of the external collaborators for one message:
the JSON-schema verdict on the composed document, success of the binary
encoding, of the `redis.set`, the `redis.hgetall` response (error, null,
or a hash), and success of the notification publish. -/
structure World where
  validateVerdict : Bool
  encodeOk : Bool
  redisSetOk : Bool
  hgetallResult : CbResult (Option Subscription)
  publishOk : Bool
deriving DecidableEq, Repr

/-- A broker acknowledgment decision (`amqpChannel.ack` / `.nack`). -/
inductive AckDecision where
  | ack
  | nack
deriving DecidableEq, Repr

/-- A notification successfully published on the outgoing exchange:
routing header `api_id` plus body fields `cx_id` and `hash_id`. -/
structure Notification where
  exchange : String
  headers_api_id : String
  body_cx_id : String
  body_hash_id : String
deriving DecidableEq, Repr

/-- A successful `redis.set` of the encoded proof:
`redis.set(hash_id, proofBase64, EX, PROOF_EXPIRE_MINUTES * 60)`. -/
structure StoredEntry where
  key : String
  value : List Tok
  ttlSeconds : Nat
deriving DecidableEq, Repr

/-- Everything one message's processing did: the broker acknowledgment
decisions made (in order), the successful store write if any, the
successfully published notifications, and the console lines printed. -/
structure GenOutcome where
  decisions : List AckDecision
  stored : Option StoredEntry
  published : List Notification
  logs : List String
deriving DecidableEq, Repr

/-- The subscription check inside the waterfall:
`if (res == null or not res.api_id or not res.cx_id)` skip, else return
`(res.api_id, res.cx_id)`. -/
def subscriptionLookup : Option Subscription → Option (String × String)
  | none => none
  | some res =>
    if !truthy res.api_id || !truthy res.cx_id then none
    else some ((res.api_id).getD "", (res.cx_id).getD "")

/-- The shared body of `generateCALProof` and `generateBTCProof`: the
schema gate followed by the waterfall (encode, `redis.set`, subscription
lookup, conditional publish) and the final ack/nack callback; `stageTag`
is the tag in the final log line (`cal` or `btc`). -/
def proofPipeline (env : Env) (w : World) (stageTag : String)
    (hashId : String) (proof : ProofDoc) : GenOutcome :=
  let ackedLog := env.RMQ_WORK_IN_GEN_QUEUE ++ " [" ++ stageTag ++ "] consume message acked"
  let nackedLog := env.RMQ_WORK_IN_GEN_QUEUE ++ " [" ++ stageTag ++ "] consume message nacked"
  if !w.validateVerdict then
    { decisions := [AckDecision.ack], stored := none, published := []
      logs := [env.RMQ_WORK_IN_GEN_QUEUE ++
        " consume message acked, but with invalid JSON schema error"] }
  else if !w.encodeOk then
    { decisions := [AckDecision.nack], stored := none, published := []
      logs := [nackedLog] }
  else if !w.redisSetOk then
    { decisions := [AckDecision.nack], stored := none, published := []
      logs := [nackedLog] }
  else
    let entry : StoredEntry :=
      { key := hashId, value := chpEncode proof
        ttlSeconds := env.PROOF_EXPIRE_MINUTES * 60 }
    match w.hgetallResult with
    | CbResult.err =>
      { decisions := [AckDecision.nack], stored := some entry, published := []
        logs := [nackedLog] }
    | CbResult.ok res =>
      match subscriptionLookup res with
      | none =>
        { decisions := [AckDecision.ack], stored := some entry, published := []
          logs := [ackedLog] }
      | some (apiId, cxId) =>
        if !w.publishOk then
          { decisions := [AckDecision.nack], stored := some entry, published := []
            logs := [env.RMQ_WORK_OUT_API_QUEUE ++ " publish message nacked", nackedLog] }
        else
          { decisions := [AckDecision.ack], stored := some entry
            published := [{ exchange := env.RMQ_OUTGOING_EXCHANGE
                            headers_api_id := apiId
                            body_cx_id := cxId
                            body_hash_id := hashId }]
            logs := [env.RMQ_WORK_OUT_API_QUEUE ++ " publish message acked", ackedLog] }

/-- The parsed content of one inbound stage event message, together with
its type tag (`msg.properties.type`).  A `cal` message carries only the
first fragments; the chain-anchor fragments are read only on the `btc`
path. -/
structure StageMessage where
  msgType : String
  hash : String
  hash_id : String
  agg_state : OpsState
  cal_state : AnchorState
  anchor_agg_state : OpsState
  btctx_state : OpsState
  btchead_state : AnchorState
deriving DecidableEq, Repr

/-- The document composed by `generateCALProof`:
header then calendar branch. -/
def calProofDoc (m : StageMessage) : ProofDoc :=
  addCalendarBranch (addChainpointHeader emptyProof m.hash m.hash_id)
    m.agg_state m.cal_state

/-- `generateCALProof` from the source. -/
def generateCALProof (env : Env) (w : World) (m : StageMessage) : GenOutcome :=
  proofPipeline env w "cal" m.hash_id (calProofDoc m)

/-- The document composed by `generateBTCProof`:
header, calendar branch, then btc branch. -/
def btcProofDoc (m : StageMessage) : Option ProofDoc :=
  addBtcBranch (calProofDoc m) m.anchor_agg_state m.btctx_state m.btchead_state

/-- `generateBTCProof` from the source. -/
def generateBTCProof (env : Env) (w : World) (m : StageMessage) :
    Option GenOutcome :=
  (btcProofDoc m).map (proofPipeline env w "btc" m.hash_id)

/-- `generateETHProof` from the source: a stub that only logs
`building eth proof`; it makes no acknowledgment decision, stores
nothing and publishes nothing. -/
def generateETHProof : GenOutcome :=
  { decisions := [], stored := none, published := [], logs := ["building eth proof"] }

/-- The outcome of the never-reached JS TypeError path of the `btc` case
(the process would crash before any effect). -/
def crashOutcome : GenOutcome :=
  { decisions := [], stored := none, published := [], logs := [] }

/-- `processMessage` from the source: dispatch on `msg.properties.type`;
a null message is ignored; an unknown type only logs
`Unknown state type` and makes no acknowledgment decision. -/
def processMessage (env : Env) (w : World) (msg : Option StageMessage) :
    GenOutcome :=
  match msg with
  | none => { decisions := [], stored := none, published := [], logs := [] }
  | some m =>
    match m.msgType with
    | "cal" => generateCALProof env w m
    | "eth" => generateETHProof
    | "btc" => (generateBTCProof env w m).getD crashOutcome
    | t =>
      { decisions := [], stored := none, published := []
        logs := ["Unknown state type " ++ t] }

/-! ### The retrieval layer's age cutoff (proofs.js) -/

/-- From `proofs.js`: the maximum eligible age of a hashId in
milliseconds (`maxDiff = env.PROOF_EXPIRE_MINUTES * 60 * 1000`). -/
def getProofsMaxDiffMs (env : Env) : Nat :=
  env.PROOF_EXPIRE_MINUTES * 60 * 1000

/-- From `proofs.js`: a hashId is served only when the difference between
the current epoch and its UUID-embedded epoch does not exceed `maxDiff`
(`if (uuidDiff > maxDiff) return callback(null)`). -/
def proofAgeEligible (env : Env) (nowEpoch uuidEpoch : Int) : Bool :=
  decide (nowEpoch - uuidEpoch ≤ (getProofsMaxDiffMs env : Int))

/-! ### Mutable-array semantics of the compositor

JS arrays are heap references: `concat` allocates a fresh array, `push`
mutates its receiver in place.  To settle the frame claim about the
input fragments, the two branch builders are restated over an explicit
array store. -/

/-- A JS array value: an address into the array store. -/
abbrev ArrRef := Nat

/-- The array store: address `r` holds the list at index `r`. -/
structure ArrStore where
  arrs : List (List ProofOp)
deriving DecidableEq, Repr

/-- Read the array at an address (out-of-range reads give the empty
list; never exercised under the validity hypotheses). -/
def readArr (s : ArrStore) (r : ArrRef) : List ProofOp :=
  (s.arrs[r]?).getD []

/-- Allocate a fresh array holding `v`; its address is the old store
size, distinct from every existing address. -/
def allocArr (s : ArrStore) (v : List ProofOp) : ArrStore × ArrRef :=
  ({ arrs := s.arrs ++ [v] }, s.arrs.length)

/-- Overwrite the array at an address. -/
def writeArr (s : ArrStore) (r : ArrRef) (v : List ProofOp) : ArrStore :=
  { arrs := s.arrs.set r v }

/-- JS `a.concat(b)`: allocates a fresh array, reads both inputs. -/
def jsConcat1 (s : ArrStore) (a b : ArrRef) : ArrStore × ArrRef :=
  allocArr s (readArr s a ++ readArr s b)

/-- JS `a.concat(b, c)`: allocates a fresh array, reads all inputs. -/
def jsConcat2 (s : ArrStore) (a b c : ArrRef) : ArrStore × ArrRef :=
  allocArr s (readArr s a ++ readArr s b ++ readArr s c)

/-- JS `a.push(v)`: mutates the receiver in place. -/
def jsPush (s : ArrStore) (a : ArrRef) (v : ProofOp) : ArrStore :=
  writeArr s a (readArr s a ++ [v])

/-- `addCalendarBranch` at the mutable-array level: the branch ops array
is `aggOps.concat(calOps)` (a fresh allocation) and the terminal anchor
element is pushed onto that fresh array.  Returns the final store and
the branch's ops address. -/
def addCalendarBranchHeap (s : ArrStore) (aggOps calOps : ArrRef)
    (anchorElem : ProofOp) : ArrStore × ArrRef :=
  let alloc := jsConcat1 s aggOps calOps
  (jsPush alloc.1 alloc.2 anchorElem, alloc.2)

/-- `addBtcBranch` at the mutable-array level: the branch ops array is
`anchorAggOps.concat(btcTxOps, btcHeadOps)` (a fresh allocation) and the
terminal anchor element is pushed onto that fresh array. -/
def addBtcBranchHeap (s : ArrStore) (anchorAggOps btcTxOps btcHeadOps : ArrRef)
    (anchorElem : ProofOp) : ArrStore × ArrRef :=
  let alloc := jsConcat2 s anchorAggOps btcTxOps btcHeadOps
  (jsPush alloc.1 alloc.2 anchorElem, alloc.2)

/-! ### Sample data for the concrete witnesses -/

/-- Sample configuration. -/
def env0 : Env :=
  { RMQ_WORK_IN_GEN_QUEUE := "work.gen"
    RMQ_WORK_OUT_API_QUEUE := "work.api"
    RMQ_OUTGOING_EXCHANGE := "exchange.headers"
    PROOF_EXPIRE_MINUTES := 1440 }

/-- Sample stage event message (a CAL event). -/
def mCal : StageMessage :=
  { msgType := "cal"
    hash := "ab12"
    hash_id := "a2f29910-0ca4-11e7-93ae-92361f002671"
    agg_state := { ops := [ProofOp.basic "a1", ProofOp.basic "a2"] }
    cal_state := { ops := [ProofOp.basic "c1"]
                   anchor := { anchor_id := "42", uris := ["http://c/calendar/42"] } }
    anchor_agg_state := { ops := [ProofOp.basic "aa1"] }
    btctx_state := { ops := [ProofOp.basic "tx1"] }
    btchead_state := { ops := [ProofOp.basic "hd1"]
                       anchor := { anchor_id := "435", uris := [] } } }

/-- Sample world: everything succeeds and a full subscription exists. -/
def wHappySub : World :=
  { validateVerdict := true, encodeOk := true, redisSetOk := true
    hgetallResult := CbResult.ok (some { api_id := some "X", cx_id := some "Y" })
    publishOk := true }

/-- Sample world: everything succeeds and no subscription exists. -/
def wNoSub : World :=
  { validateVerdict := true, encodeOk := true, redisSetOk := true
    hgetallResult := CbResult.ok none
    publishOk := true }

/-- Sample world: the schema validator rejects the composed document. -/
def wInvalid : World :=
  { validateVerdict := false, encodeOk := true, redisSetOk := true
    hgetallResult := CbResult.ok none
    publishOk := true }

/-- Sample world: the `redis.set` store write fails. -/
def wSetFail : World :=
  { validateVerdict := true, encodeOk := true, redisSetOk := false
    hgetallResult := CbResult.ok none
    publishOk := true }

/-- Sample world: a full subscription exists but the publish fails. -/
def wPubFail : World :=
  { validateVerdict := true, encodeOk := true, redisSetOk := true
    hgetallResult := CbResult.ok (some { api_id := some "X", cx_id := some "Y" })
    publishOk := false }

/-- Sample world: a subscription record exists but its `api_id` is the
empty string (falsy). -/
def wBlankApiSub : World :=
  { validateVerdict := true, encodeOk := true, redisSetOk := true
    hgetallResult := CbResult.ok (some { api_id := some "", cx_id := some "Y" })
    publishOk := true }

/-! ## Theorems -/

/-- C1: For every CAL stage event, the composed Proof Document has
exactly one root branch whose ops list equals the aggregation fragment
operations followed by the calendar fragment operations, in that order,
followed by exactly one appended terminal anchors element of type `cal`
carrying the calendar anchor id and uris; the root branch carries no
nested sub-branch. -/
theorem cal_root_branch_structure (m : StageMessage) :
    (calProofDoc m).branches =
      some [{ label := "cal_anchor_branch"
              ops := m.agg_state.ops ++ m.cal_state.ops ++
                [ProofOp.anchorList
                  [{ type := "cal"
                     anchor_id := m.cal_state.anchor.anchor_id
                     uris := some m.cal_state.anchor.uris }]]
              branches := none }] := rfl

/-- C2: For every BTC stage event, the composed Proof Document has
exactly one root branch and exactly one sub-branch nested under it
(labeled `btc_anchor_branch`), whose ops equal the anchor-aggregation
fragment operations, the transaction-level operations and the
block-header-level operations concatenated in that order, terminated by
exactly one anchors element referencing the chain-level root id. -/
theorem btc_nested_branch_structure (m : StageMessage) :
    btcProofDoc m =
      some { context := "https://w3id.org/chainpoint/v3"
             type := "Chainpoint"
             hash := m.hash
             hash_id := m.hash_id
             hash_submitted_at := formatDateISO8601NoMs (uuidTimeV1 m.hash_id)
             branches :=
               some [{ label := "cal_anchor_branch"
                       ops := m.agg_state.ops ++ m.cal_state.ops ++
                         [ProofOp.anchorList
                           [{ type := "cal"
                              anchor_id := m.cal_state.anchor.anchor_id
                              uris := some m.cal_state.anchor.uris }]]
                       branches :=
                         some [{ label := "btc_anchor_branch"
                                 ops := m.anchor_agg_state.ops ++
                                   m.btctx_state.ops ++ m.btchead_state.ops ++
                                   [ProofOp.anchorList
                                     [{ type := "btc"
                                        anchor_id := m.btchead_state.anchor.anchor_id
                                        uris := none }]] }] }] } := rfl

/-! ### Round-trip lemmas for the codec -/

theorem decString_encString (s : String) (r : List Tok) :
    decString (encString s ++ r) = some (s, r) := rfl

theorem decMany_encMany {α : Type} (g : List Tok → Option (α × List Tok))
    (f : α → List Tok) (H : ∀ a r, g (f a ++ r) = some (a, r))
    (xs : List α) (r : List Tok) :
    decMany g xs.length (encMany f xs ++ r) = some (xs, r) := by
  induction xs generalizing r with
  | nil => rfl
  | cons x xs ih =>
    have h1 : encMany f (x :: xs) ++ r = f x ++ (encMany f xs ++ r) := by
      simp [encMany]
    rw [List.length_cons, h1]
    simp [decMany, H, ih]

theorem decList_encList {α : Type} (g : List Tok → Option (α × List Tok))
    (f : α → List Tok) (H : ∀ a r, g (f a ++ r) = some (a, r))
    (xs : List α) (r : List Tok) :
    decList g (encList f xs ++ r) = some (xs, r) := by
  have h := decMany_encMany g f H xs r
  simp [encList, decList, h]

theorem decOption_encOption {α : Type} (g : List Tok → Option (α × List Tok))
    (f : α → List Tok) (H : ∀ a r, g (f a ++ r) = some (a, r))
    (o : Option α) (r : List Tok) :
    decOption g (encOption f o ++ r) = some (o, r) := by
  cases o with
  | none => rfl
  | some a =>
    have h := H a r
    simp [encOption, decOption, h]

theorem decAnchor_encAnchor (a : Anchor) (r : List Tok) :
    decAnchor (encAnchor a ++ r) = some (a, r) := by
  have hls : ∀ (xs : List String) (r1 : List Tok),
      decList decString (encList encString xs ++ r1) = some (xs, r1) :=
    fun xs r1 => decList_encList decString encString decString_encString xs r1
  have ho := decOption_encOption (decList decString) (encList encString) hls a.uris r
  cases a with
  | mk ty aid us =>
    simp only [encAnchor, encString, List.append_assoc, List.cons_append,
      List.nil_append] at *
    simp [decAnchor, decString, ho]

theorem decProofOp_encProofOp (op : ProofOp) (r : List Tok) :
    decProofOp (encProofOp op ++ r) = some (op, r) := by
  cases op with
  | basic d => rfl
  | anchorList as =>
    have h := decList_encList decAnchor encAnchor decAnchor_encAnchor as r
    simp [encProofOp, decProofOp, h]

theorem decSubBranch_encSubBranch (b : SubBranch) (r : List Tok) :
    decSubBranch (encSubBranch b ++ r) = some (b, r) := by
  have h := decList_encList decProofOp encProofOp decProofOp_encProofOp b.ops r
  cases b with
  | mk lb os =>
    simp only [encSubBranch, encString, List.append_assoc, List.cons_append,
      List.nil_append] at *
    simp [decSubBranch, decString, h]

theorem decRootBranch_encRootBranch (b : RootBranch) (r : List Tok) :
    decRootBranch (encRootBranch b ++ r) = some (b, r) := by
  have hsb : ∀ (xs : List SubBranch) (r1 : List Tok),
      decList decSubBranch (encList encSubBranch xs ++ r1) = some (xs, r1) :=
    fun xs r1 => decList_encList decSubBranch encSubBranch decSubBranch_encSubBranch xs r1
  cases b with
  | mk lb os bs =>
    have hop := decList_encList decProofOp encProofOp decProofOp_encProofOp os
      (encOption (encList encSubBranch) bs ++ r)
    have ho := decOption_encOption (decList decSubBranch) (encList encSubBranch) hsb bs r
    simp only [encRootBranch, encString, List.append_assoc, List.cons_append,
      List.nil_append] at *
    simp [decRootBranch, decString, hop, ho]

theorem decProofDoc_encProofDoc (d : ProofDoc) (r : List Tok) :
    decProofDoc (encProofDoc d ++ r) = some (d, r) := by
  have hrb : ∀ (xs : List RootBranch) (r1 : List Tok),
      decList decRootBranch (encList encRootBranch xs ++ r1) = some (xs, r1) :=
    fun xs r1 => decList_encList decRootBranch encRootBranch decRootBranch_encRootBranch xs r1
  cases d with
  | mk cx ty h hid hsa bs =>
    have ho := decOption_encOption (decList decRootBranch) (encList encRootBranch) hrb bs r
    simp only [encProofDoc, encString, List.append_assoc, List.cons_append,
      List.nil_append] at *
    simp [decProofDoc, decString, ho]

/-- C6: For every valid Proof Document `d`, decoding the binary encoding
of `d` yields `d` again: the persistence-side encoder and the
retrieval-side decoder are exact inverses. -/
theorem chpDecode_chpEncode (d : ProofDoc) : chpDecode (chpEncode d) = some d := by
  have h := decProofDoc_encProofDoc d []
  rw [List.append_nil] at h
  simp [chpDecode, chpEncode, h]

/-- C7: The `hash_submitted_at` header field is a function of the hashId
alone (the timestamp embedded in the version-1 UUID, formatted as
ISO8601 without milliseconds): two compositions for the same hashId,
whatever the rest of the event and whatever the wall-clock time (no
clock is read anywhere in the composition), produce identical values. -/
theorem hash_submitted_at_reproducible (m m' : StageMessage)
    (h : m.hash_id = m'.hash_id) :
    (calProofDoc m).hash_submitted_at =
        formatDateISO8601NoMs (uuidTimeV1 m.hash_id) ∧
    (calProofDoc m).hash_submitted_at = (calProofDoc m').hash_submitted_at := by
  refine ⟨rfl, ?_⟩
  show formatDateISO8601NoMs (uuidTimeV1 m.hash_id) =
    formatDateISO8601NoMs (uuidTimeV1 m'.hash_id)
  rw [h]

/-- Witness for C7 at concrete messages differing in everything but the
hashId. -/
theorem hash_submitted_at_reproducible_witness :
    (calProofDoc mCal).hash_submitted_at =
        formatDateISO8601NoMs (uuidTimeV1 mCal.hash_id) ∧
    (calProofDoc mCal).hash_submitted_at =
      (calProofDoc { mCal with hash := "ff00" }).hash_submitted_at :=
  hash_submitted_at_reproducible mCal { mCal with hash := "ff00" } rfl

/-! ### Helper lemmas about the pipeline -/

theorem generateBTCProof_eq (env : Env) (w : World) (m : StageMessage) :
    generateBTCProof env w m =
      some (proofPipeline env w "btc" m.hash_id ((btcProofDoc m).getD emptyProof)) := rfl

theorem proofPipeline_invalid (env : Env) (w : World) (tag hid : String)
    (proof : ProofDoc) (h : w.validateVerdict = false) :
    proofPipeline env w tag hid proof =
      { decisions := [AckDecision.ack], stored := none, published := []
        logs := [env.RMQ_WORK_IN_GEN_QUEUE ++
          " consume message acked, but with invalid JSON schema error"] } := by
  simp [proofPipeline, h]

theorem proofPipeline_nack (env : Env) (w : World) (tag hid : String)
    (proof : ProofDoc) (hv : w.validateVerdict = true)
    (hFail : w.redisSetOk = false ∨
      (w.encodeOk = true ∧ w.redisSetOk = true ∧
        (∃ res pr, w.hgetallResult = CbResult.ok res ∧
          subscriptionLookup res = some pr) ∧
        w.publishOk = false)) :
    (proofPipeline env w tag hid proof).decisions = [AckDecision.nack] := by
  rcases hFail with hs | ⟨he, hs, ⟨res, pr, hres, hsub⟩, hp⟩
  · cases he : w.encodeOk
    · simp [proofPipeline, hv, he]
    · simp [proofPipeline, hv, he, hs]
  · obtain ⟨apiId, cxId⟩ := pr
    simp [proofPipeline, hv, he, hs, hres, hsub, hp]

theorem proofPipeline_decisions_length (env : Env) (w : World) (tag hid : String)
    (proof : ProofDoc) :
    (proofPipeline env w tag hid proof).decisions.length = 1 := by
  simp only [proofPipeline]
  repeat' split
  all_goals rfl

theorem subscriptionLookup_none : subscriptionLookup none = none := rfl

theorem subscriptionLookup_full (X Y : String) (hX : X ≠ "") (hY : Y ≠ "") :
    subscriptionLookup (some { api_id := some X, cx_id := some Y }) =
      some (X, Y) := by
  simp [subscriptionLookup, truthy, hX, hY]

theorem proofPipeline_happy_sub (env : Env) (w : World) (tag hid : String)
    (proof : ProofDoc) (X Y : String)
    (hv : w.validateVerdict = true) (he : w.encodeOk = true)
    (hs : w.redisSetOk = true) (hp : w.publishOk = true)
    (hres : w.hgetallResult = CbResult.ok (some { api_id := some X, cx_id := some Y }))
    (hX : X ≠ "") (hY : Y ≠ "") :
    (proofPipeline env w tag hid proof).published =
      [{ exchange := env.RMQ_OUTGOING_EXCHANGE, headers_api_id := X
         body_cx_id := Y, body_hash_id := hid }] ∧
    (proofPipeline env w tag hid proof).decisions = [AckDecision.ack] := by
  have hsub := subscriptionLookup_full X Y hX hY
  constructor <;> simp [proofPipeline, hv, he, hs, hp, hres, hsub]

theorem proofPipeline_no_sub (env : Env) (w : World) (tag hid : String)
    (proof : ProofDoc)
    (hv : w.validateVerdict = true) (he : w.encodeOk = true)
    (hs : w.redisSetOk = true)
    (hres : w.hgetallResult = CbResult.ok none) :
    (proofPipeline env w tag hid proof).published = [] ∧
    (proofPipeline env w tag hid proof).decisions = [AckDecision.ack] := by
  constructor <;> simp [proofPipeline, hv, he, hs, hres, subscriptionLookup]

/-- C3: For every CAL or BTC stage event, a schema-invalid composed
document leads to an acknowledge decision with no store write and no
notification publish, while a valid document whose store write fails, or
whose notification publish fails, leads to a reject (nack) decision. -/
theorem ack_reject_policy (env : Env) (m : StageMessage) (w w' : World)
    (hInv : w.validateVerdict = false)
    (hVal : w'.validateVerdict = true)
    (hFail : w'.redisSetOk = false ∨
      (w'.encodeOk = true ∧ w'.redisSetOk = true ∧
        (∃ res pr, w'.hgetallResult = CbResult.ok res ∧
          subscriptionLookup res = some pr) ∧
        w'.publishOk = false)) :
    (generateCALProof env w m).decisions = [AckDecision.ack] ∧
    (generateCALProof env w m).stored = none ∧
    (generateCALProof env w m).published = [] ∧
    (generateBTCProof env w m).map GenOutcome.decisions = some [AckDecision.ack] ∧
    (generateBTCProof env w m).map GenOutcome.stored = some none ∧
    (generateBTCProof env w m).map GenOutcome.published = some [] ∧
    (generateCALProof env w' m).decisions = [AckDecision.nack] ∧
    (generateBTCProof env w' m).map GenOutcome.decisions = some [AckDecision.nack] := by
  have hc := proofPipeline_invalid env w "cal" m.hash_id (calProofDoc m) hInv
  have hb := proofPipeline_invalid env w "btc" m.hash_id
    ((btcProofDoc m).getD emptyProof) hInv
  have hcn := proofPipeline_nack env w' "cal" m.hash_id (calProofDoc m) hVal hFail
  have hbn := proofPipeline_nack env w' "btc" m.hash_id
    ((btcProofDoc m).getD emptyProof) hVal hFail
  refine ⟨?_, ?_, ?_, ?_, ?_, ?_, ?_, ?_⟩
  · rw [generateCALProof, hc]
  · rw [generateCALProof, hc]
  · rw [generateCALProof, hc]
  · rw [generateBTCProof_eq, Option.map_some', hb]
  · rw [generateBTCProof_eq, Option.map_some', hb]
  · rw [generateBTCProof_eq, Option.map_some', hb]
  · rw [generateCALProof, hcn]
  · rw [generateBTCProof_eq, Option.map_some', hbn]

/-- Witness for C3: schema-invalid world versus store-failure world, at
a concrete message. -/
theorem ack_reject_policy_witness :
    (generateCALProof env0 wInvalid mCal).decisions = [AckDecision.ack] ∧
    (generateCALProof env0 wInvalid mCal).stored = none ∧
    (generateCALProof env0 wInvalid mCal).published = [] ∧
    (generateBTCProof env0 wInvalid mCal).map GenOutcome.decisions = some [AckDecision.ack] ∧
    (generateBTCProof env0 wInvalid mCal).map GenOutcome.stored = some none ∧
    (generateBTCProof env0 wInvalid mCal).map GenOutcome.published = some [] ∧
    (generateCALProof env0 wSetFail mCal).decisions = [AckDecision.nack] ∧
    (generateBTCProof env0 wSetFail mCal).map GenOutcome.decisions = some [AckDecision.nack] :=
  ack_reject_policy env0 mCal wInvalid wSetFail rfl rfl (Or.inl rfl)

/-- C4: With a full subscription (front-end instance id `X`, connection
id `Y`) under the event's hashId and an otherwise successful run,
processing a CAL or BTC stage event publishes exactly one notification
whose routing header is `X` and whose body carries exactly `Y` and the
hashId; with no subscription record, zero notifications are published
and processing still completes normally (acknowledge). -/
theorem notification_routing (env : Env) (m : StageMessage) (w w0 : World)
    (X Y : String)
    (hv : w.validateVerdict = true) (he : w.encodeOk = true)
    (hs : w.redisSetOk = true) (hp : w.publishOk = true)
    (hSub : w.hgetallResult =
      CbResult.ok (some { api_id := some X, cx_id := some Y }))
    (hX : X ≠ "") (hY : Y ≠ "")
    (hv0 : w0.validateVerdict = true) (he0 : w0.encodeOk = true)
    (hs0 : w0.redisSetOk = true)
    (hNone : w0.hgetallResult = CbResult.ok none) :
    (generateCALProof env w m).published =
      [{ exchange := env.RMQ_OUTGOING_EXCHANGE, headers_api_id := X
         body_cx_id := Y, body_hash_id := m.hash_id }] ∧
    (generateCALProof env w m).decisions = [AckDecision.ack] ∧
    (generateBTCProof env w m).map GenOutcome.published =
      some [{ exchange := env.RMQ_OUTGOING_EXCHANGE, headers_api_id := X
              body_cx_id := Y, body_hash_id := m.hash_id }] ∧
    (generateCALProof env w0 m).published = [] ∧
    (generateCALProof env w0 m).decisions = [AckDecision.ack] ∧
    (generateBTCProof env w0 m).map GenOutcome.published = some [] ∧
    (generateBTCProof env w0 m).map GenOutcome.decisions = some [AckDecision.ack] := by
  have hc := proofPipeline_happy_sub env w "cal" m.hash_id (calProofDoc m)
    X Y hv he hs hp hSub hX hY
  have hb := proofPipeline_happy_sub env w "btc" m.hash_id
    ((btcProofDoc m).getD emptyProof) X Y hv he hs hp hSub hX hY
  have hc0 := proofPipeline_no_sub env w0 "cal" m.hash_id (calProofDoc m)
    hv0 he0 hs0 hNone
  have hb0 := proofPipeline_no_sub env w0 "btc" m.hash_id
    ((btcProofDoc m).getD emptyProof) hv0 he0 hs0 hNone
  refine ⟨?_, ?_, ?_, ?_, ?_, ?_, ?_⟩
  · exact hc.1
  · exact hc.2
  · rw [generateBTCProof_eq, Option.map_some', hb.1]
  · exact hc0.1
  · exact hc0.2
  · rw [generateBTCProof_eq, Option.map_some', hb0.1]
  · rw [generateBTCProof_eq, Option.map_some', hb0.2]

/-- Witness for C4: happy worlds with and without a subscription, at a
concrete message. -/
theorem notification_routing_witness :
    (generateCALProof env0 wHappySub mCal).published =
      [{ exchange := env0.RMQ_OUTGOING_EXCHANGE, headers_api_id := "X"
         body_cx_id := "Y", body_hash_id := mCal.hash_id }] ∧
    (generateCALProof env0 wHappySub mCal).decisions = [AckDecision.ack] ∧
    (generateBTCProof env0 wHappySub mCal).map GenOutcome.published =
      some [{ exchange := env0.RMQ_OUTGOING_EXCHANGE, headers_api_id := "X"
              body_cx_id := "Y", body_hash_id := mCal.hash_id }] ∧
    (generateCALProof env0 wNoSub mCal).published = [] ∧
    (generateCALProof env0 wNoSub mCal).decisions = [AckDecision.ack] ∧
    (generateBTCProof env0 wNoSub mCal).map GenOutcome.published = some [] ∧
    (generateBTCProof env0 wNoSub mCal).map GenOutcome.decisions = some [AckDecision.ack] :=
  notification_routing env0 mCal wHappySub wNoSub "X" "Y" rfl rfl rfl rfl rfl
    (by decide) (by decide) rfl rfl rfl rfl

/-- C9: A subscription record that exists but lacks a truthy front-end
instance id or a truthy connection id is treated exactly like an absent
subscription: the whole outcome equals the outcome with no record, and
in a successful run zero notifications are published and the message is
acknowledged. -/
theorem incompleteSubscription_like_absent (env : Env) (m : StageMessage)
    (w : World) (sub : Subscription)
    (hres : w.hgetallResult = CbResult.ok (some sub))
    (hPart : truthy sub.api_id = false ∨ truthy sub.cx_id = false) :
    generateCALProof env w m =
      generateCALProof env { w with hgetallResult := CbResult.ok none } m ∧
    generateBTCProof env w m =
      generateBTCProof env { w with hgetallResult := CbResult.ok none } m ∧
    (w.validateVerdict = true → w.encodeOk = true → w.redisSetOk = true →
      (generateCALProof env w m).published = [] ∧
      (generateCALProof env w m).decisions = [AckDecision.ack] ∧
      (generateBTCProof env w m).map GenOutcome.published = some [] ∧
      (generateBTCProof env w m).map GenOutcome.decisions = some [AckDecision.ack]) := by
  have hsub : subscriptionLookup (some sub) = none := by
    rcases hPart with h | h <;> simp [subscriptionLookup, h]
  have hpipe : ∀ tag hid proof, proofPipeline env w tag hid proof =
      proofPipeline env { w with hgetallResult := CbResult.ok none } tag hid proof := by
    intro tag hid proof
    simp only [proofPipeline, hres, hsub, subscriptionLookup_none]
  refine ⟨?_, ?_, ?_⟩
  · rw [generateCALProof, generateCALProof, hpipe]
  · rw [generateBTCProof_eq, generateBTCProof_eq, hpipe]
  · intro hv he hs
    have hc : (proofPipeline env w "cal" m.hash_id (calProofDoc m)).published = [] ∧
        (proofPipeline env w "cal" m.hash_id (calProofDoc m)).decisions = [AckDecision.ack] := by
      constructor <;> simp [proofPipeline, hv, he, hs, hres, hsub]
    have hb : (proofPipeline env w "btc" m.hash_id
          ((btcProofDoc m).getD emptyProof)).published = [] ∧
        (proofPipeline env w "btc" m.hash_id
          ((btcProofDoc m).getD emptyProof)).decisions = [AckDecision.ack] := by
      constructor <;> simp [proofPipeline, hv, he, hs, hres, hsub]
    refine ⟨hc.1, hc.2, ?_, ?_⟩
    · rw [generateBTCProof_eq, Option.map_some', hb.1]
    · rw [generateBTCProof_eq, Option.map_some', hb.2]

/-- Witness for C9: a record whose `api_id` is the empty string, at a
concrete message and otherwise successful world. -/
theorem incompleteSubscription_like_absent_witness :
    generateCALProof env0 wBlankApiSub mCal =
      generateCALProof env0 { wBlankApiSub with hgetallResult := CbResult.ok none } mCal ∧
    (generateCALProof env0 wBlankApiSub mCal).published = [] ∧
    (generateCALProof env0 wBlankApiSub mCal).decisions = [AckDecision.ack] := by
  have h := incompleteSubscription_like_absent env0 mCal wBlankApiSub
    { api_id := some "", cx_id := some "Y" } rfl (Or.inl (by decide))
  exact ⟨h.1, (h.2.2 rfl rfl rfl).1, (h.2.2 rfl rfl rfl).2.1⟩

/-- Counterexample to C5: a message with an unknown stage type is only
reported and receives no acknowledgment decision (not acknowledged as
claimed), and an `eth` message also receives no acknowledgment
decision. -/
theorem stage_dispatch_counterexample :
    (processMessage env0 wHappySub (some { mCal with msgType := "zzz" })).decisions = [] ∧
    (processMessage env0 wHappySub (some { mCal with msgType := "zzz" })).logs =
      ["Unknown state type zzz"] ∧
    (processMessage env0 wHappySub (some { mCal with msgType := "eth" })).decisions = [] := by
  refine ⟨?_, ?_, ?_⟩ <;> rfl

/-- C5 amended: a `cal` or `btc` message receives exactly one broker
acknowledgment decision; an `eth` message is reported (the stub logs)
and receives no acknowledgment decision; a message with an unknown stage
type is reported and receives no acknowledgment decision. -/
theorem stage_dispatch_decisions (env : Env) (w : World) (m : StageMessage) :
    (m.msgType = "cal" ∨ m.msgType = "btc" →
      (processMessage env w (some m)).decisions.length = 1) ∧
    (m.msgType = "eth" →
      (processMessage env w (some m)).decisions = [] ∧
      (processMessage env w (some m)).logs = ["building eth proof"]) ∧
    (m.msgType ≠ "cal" → m.msgType ≠ "btc" → m.msgType ≠ "eth" →
      (processMessage env w (some m)).decisions = [] ∧
      (processMessage env w (some m)).logs = ["Unknown state type " ++ m.msgType]) := by
  rcases m with ⟨mt, mh, mhid, ma, mc, maa, mtx, mhd⟩
  refine ⟨?_, ?_, ?_⟩
  · rintro (h | h) <;> cases h
    · exact proofPipeline_decisions_length env w "cal" mhid _
    · rw [show processMessage env w (some ⟨"btc", mh, mhid, ma, mc, maa, mtx, mhd⟩) =
        (generateBTCProof env w ⟨"btc", mh, mhid, ma, mc, maa, mtx, mhd⟩).getD crashOutcome
        from rfl, generateBTCProof_eq, Option.getD_some]
      exact proofPipeline_decisions_length env w "btc" mhid _
  · intro h
    cases h
    exact ⟨rfl, rfl⟩
  · intro h1 h2 h3
    constructor <;> simp [processMessage, h1, h2, h3]

/-- Witness for C5 amended: a concrete `cal` message gets exactly one
decision; a concrete `eth` message gets none. -/
theorem stage_dispatch_decisions_witness :
    (processMessage env0 wHappySub (some mCal)).decisions.length = 1 ∧
    (processMessage env0 wHappySub (some { mCal with msgType := "eth" })).decisions = [] :=
  ⟨(stage_dispatch_decisions env0 wHappySub mCal).1 (Or.inl rfl),
   ((stage_dispatch_decisions env0 wHappySub { mCal with msgType := "eth" }).2.1 rfl).1⟩

/-- C8: Every stored encoded Proof Document carries a TTL of
`PROOF_EXPIRE_MINUTES * 60` seconds, and the retrieval layer's maximum
eligible fetch age is `PROOF_EXPIRE_MINUTES * 60 * 1000` milliseconds —
the same window: TTL seconds times 1000 equals the retrieval cutoff, and
the eligibility check accepts exactly the ages within the stored TTL. -/
theorem stored_ttl_matches_retrieval_window (env : Env) (w : World)
    (tag hid : String) (proof : ProofDoc) (entry : StoredEntry)
    (h : (proofPipeline env w tag hid proof).stored = some entry) :
    entry.ttlSeconds = env.PROOF_EXPIRE_MINUTES * 60 ∧
    getProofsMaxDiffMs env = env.PROOF_EXPIRE_MINUTES * 60 * 1000 ∧
    entry.ttlSeconds * 1000 = getProofsMaxDiffMs env ∧
    (∀ nowEpoch uuidEpoch : Int,
      proofAgeEligible env nowEpoch uuidEpoch = true ↔
        nowEpoch - uuidEpoch ≤ (entry.ttlSeconds * 1000 : Nat)) := by
  have hts : entry.ttlSeconds = env.PROOF_EXPIRE_MINUTES * 60 := by
    rcases w with ⟨v, e, s, hg, p⟩
    cases v
    · simp [proofPipeline] at h
    · cases e
      · simp [proofPipeline] at h
      · cases s
        · simp [proofPipeline] at h
        · cases hg with
          | err =>
            simp [proofPipeline] at h
            rw [← h]
          | ok res =>
            rcases hsub : subscriptionLookup res with _ | ⟨a, c⟩
            · simp [proofPipeline, hsub] at h
              rw [← h]
            · cases p
              · simp [proofPipeline, hsub] at h
                rw [← h]
              · simp [proofPipeline, hsub] at h
                rw [← h]
  refine ⟨hts, rfl, by rw [hts]; rfl, ?_⟩
  intro nowEpoch uuidEpoch
  rw [hts]
  simp [proofAgeEligible, getProofsMaxDiffMs, Nat.mul_assoc]

/-- Witness for C8 at a concrete successful run. -/
theorem stored_ttl_matches_retrieval_window_witness :
    ({ key := mCal.hash_id, value := chpEncode (calProofDoc mCal)
       ttlSeconds := env0.PROOF_EXPIRE_MINUTES * 60 } : StoredEntry).ttlSeconds * 1000 =
      getProofsMaxDiffMs env0 :=
  (stored_ttl_matches_retrieval_window env0 wNoSub "cal" mCal.hash_id
    (calProofDoc mCal) _ rfl).2.2.1

/-! ### Frame lemmas for the mutable-array model -/

theorem readArr_alloc_lt (s : ArrStore) (v : List ProofOp) (r : ArrRef)
    (h : r < s.arrs.length) : readArr (allocArr s v).1 r = readArr s r := by
  simp [readArr, allocArr, List.getElem?_append_left h]

theorem allocArr_snd (s : ArrStore) (v : List ProofOp) :
    (allocArr s v).2 = s.arrs.length := rfl

theorem readArr_alloc_fresh (s : ArrStore) (v : List ProofOp) :
    readArr (allocArr s v).1 s.arrs.length = v := by
  simp [readArr, allocArr, List.getElem?_concat_length]

theorem readArr_write_ne (s : ArrStore) (r r' : ArrRef) (v : List ProofOp)
    (h : r ≠ r') : readArr (writeArr s r v) r' = readArr s r' := by
  simp [readArr, writeArr, List.getElem?_set_ne h]

theorem readArr_write_self (s : ArrStore) (r : ArrRef) (v : List ProofOp)
    (h : r < s.arrs.length) : readArr (writeArr s r v) r = v := by
  simp [readArr, writeArr, List.getElem?_set_self h]

/-- C10: Composition never mutates the input stage event's fragments:
after building the calendar branch or the chain-anchor branch over the
mutable-array semantics, every input fragment ops array is unchanged,
and the appended anchor element lands only on the freshly allocated
branch ops array. -/
theorem compositor_does_not_mutate_fragments
    (s : ArrStore) (aggOps calOps : ArrRef) (e1 : ProofOp)
    (s2 : ArrStore) (aaOps txOps hdOps : ArrRef) (e2 : ProofOp)
    (h1 : aggOps < s.arrs.length) (h2 : calOps < s.arrs.length)
    (h3 : aaOps < s2.arrs.length) (h4 : txOps < s2.arrs.length)
    (h5 : hdOps < s2.arrs.length) :
    (readArr (addCalendarBranchHeap s aggOps calOps e1).1 aggOps = readArr s aggOps ∧
     readArr (addCalendarBranchHeap s aggOps calOps e1).1 calOps = readArr s calOps ∧
     readArr (addCalendarBranchHeap s aggOps calOps e1).1
         (addCalendarBranchHeap s aggOps calOps e1).2 =
       readArr s aggOps ++ readArr s calOps ++ [e1]) ∧
    (readArr (addBtcBranchHeap s2 aaOps txOps hdOps e2).1 aaOps = readArr s2 aaOps ∧
     readArr (addBtcBranchHeap s2 aaOps txOps hdOps e2).1 txOps = readArr s2 txOps ∧
     readArr (addBtcBranchHeap s2 aaOps txOps hdOps e2).1 hdOps = readArr s2 hdOps ∧
     readArr (addBtcBranchHeap s2 aaOps txOps hdOps e2).1
         (addBtcBranchHeap s2 aaOps txOps hdOps e2).2 =
       readArr s2 aaOps ++ readArr s2 txOps ++ readArr s2 hdOps ++ [e2]) := by
  constructor
  · simp only [addCalendarBranchHeap, jsConcat1, jsPush, allocArr_snd]
    refine ⟨?_, ?_, ?_⟩
    · rw [readArr_write_ne _ _ _ _ (ne_of_gt h1),
        readArr_alloc_lt s _ aggOps h1]
    · rw [readArr_write_ne _ _ _ _ (ne_of_gt h2),
        readArr_alloc_lt s _ calOps h2]
    · rw [readArr_write_self _ _ _ (by simp [allocArr]),
        readArr_alloc_fresh]
  · simp only [addBtcBranchHeap, jsConcat2, jsPush, allocArr_snd]
    refine ⟨?_, ?_, ?_, ?_⟩
    · rw [readArr_write_ne _ _ _ _ (ne_of_gt h3),
        readArr_alloc_lt s2 _ aaOps h3]
    · rw [readArr_write_ne _ _ _ _ (ne_of_gt h4),
        readArr_alloc_lt s2 _ txOps h4]
    · rw [readArr_write_ne _ _ _ _ (ne_of_gt h5),
        readArr_alloc_lt s2 _ hdOps h5]
    · rw [readArr_write_self _ _ _ (by simp [allocArr]),
        readArr_alloc_fresh]

/-- Witness for C10 at a concrete two-array store. -/
theorem compositor_does_not_mutate_fragments_witness :
    readArr (addCalendarBranchHeap { arrs := [[ProofOp.basic "a1"], [ProofOp.basic "c1"]] }
        0 1 (ProofOp.basic "e")).1 0 =
      readArr { arrs := [[ProofOp.basic "a1"], [ProofOp.basic "c1"]] } 0 :=
  (compositor_does_not_mutate_fragments
    { arrs := [[ProofOp.basic "a1"], [ProofOp.basic "c1"]] } 0 1 (ProofOp.basic "e")
    { arrs := [[ProofOp.basic "x"], [ProofOp.basic "y"], [ProofOp.basic "z"]] } 0 1 2
    (ProofOp.basic "e2")
    (by decide) (by decide) (by decide) (by decide) (by decide)).1.1

end Chainpoint
